import Mathlib

/-!
Verification of the Pintuxx launcher's download and install engine
(`launcher.py`), via a shallow embedding of its core operations:
the resumable transfer protocol (`_download_file`, `_make_request`),
checksum-gated install (`install_game`), the installed-games directory scan
(`get_installed_games`), the bounded download scheduler
(`queue_download` / `process_download_queue` / `download_completed`),
version comparison (`_compare_versions`), and the self-update path
(`_perform_update`).

Bytes are modelled as `List Nat`, the digest function (MD5 in the source)
as an abstract parameter `digest : List Nat → String`, the network as a
response function supplied by the environment, and the on-disk install
root as an explicit association of paths to directories and files.
-/

/-- A version-component integer parsed in the style of Python `int`:
an optional sign followed by one or more decimal digits (surrounding
whitespace tolerance of `int` is not modelled; no input here carries it).
Returns `none` where `int` raises `ValueError`. -/
def digitsToNat? (cs : List Char) : Option Nat :=
  if cs.isEmpty then none
  else
    cs.foldl
      (fun acc c =>
        match acc with
        | none => none
        | some n => if c.isDigit then some (n * 10 + (c.toNat - 48)) else none)
      (some 0)

/-- Python `int(s)` on a version component: sign and decimal digits. -/
def pyInt? (cs : List Char) : Option Int :=
  match cs with
  | '+' :: rest => (digitsToNat? rest).map (fun n => (n : Int))
  | '-' :: rest => (digitsToNat? rest).map (fun n => -(n : Int))
  | l => (digitsToNat? l).map (fun n => (n : Int))

/-- Python `str.split('.')`: splits on every dot, keeping empty pieces,
so the result always has one more piece than there are dots
(`"".split('.') = ['']`). -/
def splitDots : List Char → List (List Char)
  | [] => [[]]
  | c :: rest =>
    if c = '.' then [] :: splitDots rest
    else
      match splitDots rest with
      | [] => [[c]]
      | piece :: pieces => (c :: piece) :: pieces

/-- The tail of the comparison loop of `_compare_versions` once the
`current` components are exhausted: each remaining `latest` component is
compared against the default `0`. -/
def cmpAgainstZeros : List Int → Int
  | [] => 0
  | b :: bs => if 0 < b then -1 else if b < 0 then 1 else cmpAgainstZeros bs

/-- The component-wise comparison loop of `_compare_versions`
(launcher.py lines 729-737): iterate over the components of both lists,
a missing trailing component counting as `0`; the first unequal pair
decides `-1` or `1`, otherwise the result is `0`. -/
def cmpParts : List Int → List Int → Int
  | [], bs => cmpAgainstZeros bs
  | a :: as, [] => if a < 0 then -1 else if 0 < a then 1 else cmpParts as []
  | a :: as, b :: bs => if a < b then -1 else if b < a then 1 else cmpParts as bs

/-- `PintuxxGameLauncher._compare_versions` (launcher.py lines 724-737):
split both strings on `.`, convert every component with `int` — a
conversion failure (Python `ValueError`) is modelled as `none` — and
compare component-wise. -/
def _compare_versions (current latest : String) : Option Int :=
  match (splitDots current.toList).mapM pyInt?, (splitDots latest.toList).mapM pyInt? with
  | some cs, some ls => some (cmpParts cs ls)
  | _, _ => none

/-- The possible outcomes of one HTTP exchange as seen by
`SecureRequestHandler._make_request` (launcher.py lines 29-51): either the
server answers with a status and a body, or a transport-level exception is
raised while connecting/sending the request or while reading the
response. -/
inductive NetOutcome where
  | ok (status : Nat) (body : List Nat)
  | connectError
  | readError
deriving DecidableEq

/-- `SecureRequestHandler._make_request`: returns the response status and
body; any transport-level exception is caught and turned into the uniform
failure result `(500, b'')` — the exception never escapes to the
caller. -/
def _make_request : NetOutcome → Nat × List Nat
  | .ok s b => (s, b)
  | .connectError => (500, [])
  | .readError => (500, [])

/-- Result of `GameManager._download_file`: whether the function returned
`True`, and the contents of the destination file afterwards (`none` when
the file does not exist). -/
structure DownloadResult where
  success : Bool
  file : Option (List Nat)
deriving DecidableEq

/-- `GameManager._download_file` (launcher.py lines 124-165).
`existing` is the destination file's contents beforehand (`none` if
absent); when it exists, a `Range` header from its current size is sent —
`respond` maps the optional range offset to the server's
`(status, payload)`. A `206` appends the payload (mode `'ab'`), a `200`
truncates and writes it (mode `'wb'`), any other status returns `False`
without touching the file and without retrying. After writing, the MD5
digest (abstracted as `digest`) of the on-disk file is compared with
`expected_checksum`; the file is kept either way. -/
def _download_file (digest : List Nat → String) (existing : Option (List Nat))
    (respond : Option Nat → Nat × List Nat) (expected_checksum : String) :
    DownloadResult :=
  let rangeFrom : Option Nat := existing.map List.length
  let pr := respond rangeFrom
  if pr.1 = 206 then
    let contents := existing.getD [] ++ pr.2
    { success := decide (digest contents = expected_checksum), file := some contents }
  else if pr.1 = 200 then
    { success := decide (digest pr.2 = expected_checksum), file := some pr.2 }
  else
    { success := false, file := existing }

/-- The install root (`GameManager.install_dir`) as a directory tree:
`dirs` holds the directory paths that exist below the root
(`[title]` and `[title, version]` level paths are what the scan looks at)
and `files` associates file paths to byte contents. -/
structure FS where
  dirs : List (List String)
  files : List (List String × List Nat)
deriving DecidableEq

/-- `Path.mkdir(exist_ok=True)` for one path: a no-op when the directory
already exists. -/
def FS.mkdirOne (fs : FS) (p : List String) : FS :=
  if p ∈ fs.dirs then fs else { fs with dirs := fs.dirs ++ [p] }

def lookupFile : List (List String × List Nat) → List String → Option (List Nat)
  | [], _ => none
  | e :: rest, p => if e.1 = p then some e.2 else lookupFile rest p

/-- Contents of the file at `p`, or `none` when no such file exists. -/
def FS.fileContents (fs : FS) (p : List String) : Option (List Nat) :=
  lookupFile fs.files p

def removeEntry : List (List String × List Nat) → List String → List (List String × List Nat)
  | [], _ => []
  | e :: rest, p => if e.1 = p then removeEntry rest p else e :: removeEntry rest p

/-- Create or overwrite the file at `p`. -/
def FS.writeFile (fs : FS) (p : List String) (c : List Nat) : FS :=
  { fs with files := (p, c) :: removeEntry fs.files p }

/-- `Path.unlink` (modelled as a no-op when the file is absent; the source
only unlinks after an existence check). -/
def FS.removeFile (fs : FS) (p : List String) : FS :=
  { fs with files := removeEntry fs.files p }

/-- `Path.rename`: move the contents of `src` to `dst`. -/
def FS.rename (fs : FS) (src dst : List String) : FS :=
  match fs.fileContents src with
  | some c => (fs.removeFile src).writeFile dst c
  | none => fs

/-- The temp-file name `f"{game_name}_{version}.tmp"` of `install_game`. -/
def tempName (game_name version : String) : String :=
  game_name ++ "_" ++ version ++ ".tmp"

/-- The final archive name `f"{game_name}_{version}.zip"` of
`install_game`. -/
def finalName (game_name version : String) : String :=
  game_name ++ "_" ++ version ++ ".zip"

/-- `GameManager.install_game` (launcher.py lines 85-103): create
`<root>/<name>/<version>/` up front (`parents=True, exist_ok=True`),
download to the temp file, and only on a verified download rename it to
the final archive, extract it, and delete the archive. `extract` models
`zipfile`: given the archive bytes it yields the entries to materialise
in the version directory, or `none` for a `BadZipFile`. Returns the
reported success together with the resulting install root. -/
def install_game (digest : List Nat → String)
    (extract : List Nat → Option (List (String × List Nat)))
    (fs : FS) (game_name version : String)
    (respond : Option Nat → Nat × List Nat) (checksum : String) : Bool × FS :=
  let fs1 := (fs.mkdirOne [game_name]).mkdirOne [game_name, version]
  let tempPath := [game_name, version, tempName game_name version]
  let finalPath := [game_name, version, finalName game_name version]
  let r := _download_file digest (fs1.fileContents tempPath) respond checksum
  let fs2 := match r.file with
    | some c => fs1.writeFile tempPath c
    | none => fs1
  if r.success then
    let fs3 := fs2.rename tempPath finalPath
    match extract ((fs3.fileContents finalPath).getD []) with
    | some entries =>
      let fs4 := entries.foldl (fun a e => a.writeFile [game_name, version, e.1] e.2) fs3
      (true, fs4.removeFile finalPath)
    | none => (false, fs3)
  else
    (false, fs2)

/-- The filter `match`-function of the installed-games scan: a path one
level below a title directory counts as an installed version of that
title exactly when it is a two-component directory path starting with the
title. -/
def versionOf (t : String) : List String → Option String
  | [a, b] => if a = t then some b else none
  | _ => none

/-- The versions of title `t` present on disk: the version subdirectories
of `<root>/<t>/`. -/
def childVersions (dirs : List (List String)) (t : String) : List String :=
  dirs.filterMap (versionOf t)

/-- One entry of the `get_installed_games` scan: a top-level directory
`[t]` contributes `(t, versions)` when it has at least one version
subdirectory; note that the version directories themselves may be
empty. -/
def installedEntry (dirs : List (List String)) : List String → Option (String × List String)
  | [t] =>
    let vs := childVersions dirs t
    if vs.isEmpty then none else some (t, vs)
  | _ => none

/-- `GameManager.get_installed_games` (launcher.py lines 76-83): scan the
top-level directories of the install root; each one with a non-empty list
of version subdirectories is reported with those versions. -/
def get_installed_games (fs : FS) : List (String × List String) :=
  fs.dirs.filterMap (installedEntry fs.dirs)

/-- Whether the scan reports title `t` as installed at version `v`. -/
def reportsInstalled (fs : FS) (t v : String) : Bool :=
  (get_installed_games fs).any fun e => decide (e.1 = t ∧ v ∈ e.2)

/-- The scheduler state of `PintuxxGameLauncher`: the FIFO
`download_queue` list, the keys of the `active_downloads` dict, and the
titles of the `DownloadWorker` threads that have been started
(`worker.start()`, line 591) and whose completion callback has not yet
run — the workers actually downloading. The dict key set and the running
workers differ: assigning `active_downloads[name] = worker` on a name
that is already a key overwrites the entry but still starts a fresh
worker, so `running` can hold a title more often than the dict does. -/
structure Sched where
  download_queue : List String
  active_downloads : List String
  running : List String
deriving DecidableEq

/-- The launcher's initial scheduler state (`__init__`, lines 330-331):
empty queue, no active downloads, no workers. -/
def initialSched : Sched :=
  { download_queue := [], active_downloads := [], running := [] }

/-- `PintuxxGameLauncher.process_download_queue` (lines 570-591): return
unchanged when the queue is empty or the `active_downloads` dict already
has three keys; otherwise pop the head of the queue, assign it into
`active_downloads` (a dict keyed by name: the key set gains the name only
if absent, an existing key is overwritten) and start its worker thread —
the new worker runs regardless of whether the key assignment was an
overwrite. -/
def process_download_queue (s : Sched) : Sched :=
  match s.download_queue with
  | [] => s
  | g :: rest =>
    if 3 ≤ s.active_downloads.length then s
    else
      { download_queue := rest,
        active_downloads :=
          if g ∈ s.active_downloads then s.active_downloads
          else s.active_downloads ++ [g],
        running := s.running ++ [g] }

/-- `PintuxxGameLauncher.queue_download` (lines 560-568): do nothing when
the name is already a key of `active_downloads`; otherwise append it to
the queue and run the dispatcher once. -/
def queue_download (s : Sched) (game_name : String) : Sched :=
  if game_name ∈ s.active_downloads then s
  else process_download_queue { s with download_queue := s.download_queue ++ [game_name] }

/-- `PintuxxGameLauncher.download_completed` (lines 597-605), as run when
one worker for `game_name` finishes its download: that worker stops
(one occurrence leaves `running`), the callback deletes the name from
`active_downloads` (if present — this drops the shared key even when a
second worker for the same title is still running), and the dispatcher
runs again. -/
def download_completed (s : Sched) (game_name : String) : Sched :=
  process_download_queue
    { s with active_downloads := s.active_downloads.erase game_name,
             running := s.running.erase game_name }

/-- The scheduler states reachable from the launcher's initial state by
enqueue requests and completion callbacks (the only two code paths that
mutate the queue, the active dict or the worker set); a completion
callback can only come from a worker that is actually running. -/
inductive SchedReachable : Sched → Prop
  | init : SchedReachable initialSched
  | enqueue (s : Sched) (n : String) :
      SchedReachable s → SchedReachable (queue_download s n)
  | complete (s : Sched) (n : String) (hn : n ∈ s.running) :
      SchedReachable s → SchedReachable (download_completed s n)

/-- The observable outcome of `PintuxxGameLauncher._perform_update`:
whether the finalize script was generated and launched (followed by the
quit request), whether the checksum comparison was ever performed, and
the staged new binary (`temp_update/launcher_new.exe`) left on disk
(`none`: never written, or deleted again on mismatch). -/
structure UpdateOutcome where
  script_launched : Bool
  verify_called : Bool
  new_binary : Option (List Nat)
deriving DecidableEq

/-- `PintuxxGameLauncher._perform_update` (lines 757-788): on a `200`
response the payload is written to the staging file; then
`update_info.get('checksum')` is tested for Python truthiness — an absent
key (`None`) or an empty string is falsy — and only a truthy checksum is
compared against the staged file's digest. A mismatch deletes the staged
file and aborts; otherwise (including the skipped-verification case) the
replacement script is created and launched. A non-`200` status aborts
without writing. -/
def _perform_update (digest : List Nat → String) (resp : Nat × List Nat)
    (checksum : Option String) : UpdateOutcome :=
  if resp.1 = 200 then
    let written := resp.2
    let truthyChecksum : Bool :=
      match checksum with
      | none => false
      | some s => decide (s ≠ "")
    if truthyChecksum then
      if digest written = checksum.getD "" then
        { script_launched := true, verify_called := true, new_binary := some written }
      else
        { script_launched := false, verify_called := true, new_binary := none }
    else
      { script_launched := true, verify_called := false, new_binary := some written }
  else
    { script_launched := false, verify_called := false, new_binary := none }

/-- Pad a component list with zeros up to length `n`. -/
def padTo (l : List Int) (n : Nat) : List Int :=
  l ++ List.replicate (n - l.length) 0

/-- Modelled from the spec's wording of version comparison ("compare
component-wise as integers, treating a missing trailing component as 0;
the first non-equal pair determines order"): pad both component lists
with zeros to a common length and let the first unequal pair decide. -/
def specCompare (as bs : List Int) : Int :=
  match (List.zip (padTo as (max as.length bs.length))
      (padTo bs (max as.length bs.length))).find? (fun p => decide (p.1 ≠ p.2)) with
  | some p => if p.1 < p.2 then -1 else 1
  | none => 0

/-- A server that serves file `F` and honours range requests correctly:
a request without a `Range` header gets `200` with the whole file, a
request from offset `k` gets `206` with the bytes from `k` on. -/
def rangeServer (F : List Nat) : Option Nat → Nat × List Nat
  | none => (200, F)
  | some k => (206, F.drop k)

theorem padTo_nil (n : Nat) : padTo [] n = List.replicate n 0 := by
  simp [padTo]

theorem padTo_cons (a : Int) (as : List Int) (n : Nat) :
    padTo (a :: as) (n + 1) = a :: padTo as n := by
  simp [padTo, Nat.succ_sub_succ]

theorem padTo_nil_succ (n : Nat) : padTo [] (n + 1) = 0 :: padTo [] n := by
  simp [padTo, List.replicate_succ]

theorem specCompare_nil_nil : specCompare [] [] = 0 := by
  simp [specCompare, padTo]

theorem specCompare_cons_cons (a b : Int) (as bs : List Int) :
    specCompare (a :: as) (b :: bs) =
      if a < b then -1 else if b < a then 1 else specCompare as bs := by
  unfold specCompare
  rw [List.length_cons, List.length_cons, Nat.succ_max_succ, padTo_cons, padTo_cons,
    List.zip_cons_cons, List.find?_cons]
  rcases lt_trichotomy a b with h | h | h
  · simp [ne_of_lt h, h]
  · subst h
    simp
  · simp [ne_of_gt h, h, not_lt.mpr (le_of_lt h)]

theorem specCompare_cons_nil (a : Int) (as : List Int) :
    specCompare (a :: as) [] =
      if a < 0 then -1 else if 0 < a then 1 else specCompare as [] := by
  unfold specCompare
  simp only [List.length_cons, List.length_nil, Nat.max_zero, padTo_nil_succ,
    padTo_cons, List.zip_cons_cons, List.find?_cons]
  rcases lt_trichotomy a 0 with h | h | h
  · simp [ne_of_lt h, h]
  · subst h
    simp
  · simp [ne_of_gt h, h, not_lt.mpr (le_of_lt h)]

theorem specCompare_nil_cons (b : Int) (bs : List Int) :
    specCompare [] (b :: bs) =
      if 0 < b then -1 else if b < 0 then 1 else specCompare [] bs := by
  unfold specCompare
  simp only [List.length_cons, List.length_nil, Nat.zero_max, padTo_nil_succ,
    padTo_cons, List.zip_cons_cons, List.find?_cons]
  rcases lt_trichotomy (0 : Int) b with h | h | h
  · simp [ne_of_lt h, h]
  · rw [← h]
    simp
  · simp [ne_of_gt h, h, not_lt.mpr (le_of_lt h)]

theorem cmpAgainstZeros_eq_spec (bs : List Int) :
    cmpAgainstZeros bs = specCompare [] bs := by
  induction bs with
  | nil => simp [cmpAgainstZeros, specCompare_nil_nil]
  | cons b bs ih => rw [specCompare_nil_cons, ← ih]; simp [cmpAgainstZeros]

theorem cmpParts_eq_specCompare (as : List Int) :
    ∀ bs, cmpParts as bs = specCompare as bs := by
  induction as with
  | nil =>
    intro bs
    simpa [cmpParts] using cmpAgainstZeros_eq_spec bs
  | cons a as ih =>
    intro bs
    cases bs with
    | nil => rw [specCompare_cons_nil, ← ih]; simp [cmpParts]
    | cons b bs => rw [specCompare_cons_cons, ← ih]; simp [cmpParts]

theorem cmpAgainstZeros_trichotomy (bs : List Int) :
    cmpAgainstZeros bs = -1 ∨ cmpAgainstZeros bs = 0 ∨ cmpAgainstZeros bs = 1 := by
  induction bs with
  | nil => simp [cmpAgainstZeros]
  | cons b bs ih =>
    simp only [cmpAgainstZeros]
    split
    · exact Or.inl rfl
    · split
      · exact Or.inr (Or.inr rfl)
      · exact ih

theorem compare_versions_parsed (c l : String) (cs ls : List Int)
    (hc : (splitDots c.toList).mapM pyInt? = some cs)
    (hl : (splitDots l.toList).mapM pyInt? = some ls) :
    _compare_versions c l = some (cmpParts cs ls) := by
  unfold _compare_versions
  rw [hc, hl]

theorem compare_versions_failed (c l : String)
    (h : (splitDots c.toList).mapM pyInt? = none ∨ (splitDots l.toList).mapM pyInt? = none) :
    _compare_versions c l = none := by
  unfold _compare_versions
  rcases hc : (splitDots c.toList).mapM pyInt? with _ | cs
  · rfl
  · rcases hl : (splitDots l.toList).mapM pyInt? with _ | ls
    · rfl
    · rcases h with h | h
      · rw [h] at hc
        cases hc
      · rw [h] at hl
        cases hl

theorem cmpParts_trichotomy (as : List Int) :
    ∀ bs, cmpParts as bs = -1 ∨ cmpParts as bs = 0 ∨ cmpParts as bs = 1 := by
  induction as with
  | nil =>
    intro bs
    simpa [cmpParts] using cmpAgainstZeros_trichotomy bs
  | cons a as ih =>
    intro bs
    cases bs with
    | nil =>
      simp only [cmpParts]
      split
      · exact Or.inl rfl
      · split
        · exact Or.inr (Or.inr rfl)
        · exact ih []
    | cons b bs =>
      simp only [cmpParts]
      split
      · exact Or.inl rfl
      · split
        · exact Or.inr (Or.inr rfl)
        · exact ih bs

theorem versionOf_eq_some (t v : String) (p : List String) :
    versionOf t p = some v ↔ p = [t, v] := by
  rcases p with _ | ⟨a, _ | ⟨b, _ | ⟨c, r⟩⟩⟩ <;> simp [versionOf]

theorem mem_childVersions (dirs : List (List String)) (t v : String) :
    v ∈ childVersions dirs t ↔ [t, v] ∈ dirs := by
  simp [childVersions, List.mem_filterMap, versionOf_eq_some]

theorem reportsInstalled_iff (fs : FS) (t v : String) :
    reportsInstalled fs t v = true ↔ ([t] ∈ fs.dirs ∧ [t, v] ∈ fs.dirs) := by
  unfold reportsInstalled get_installed_games
  rw [List.any_eq_true]
  constructor
  · rintro ⟨e, he, hpred⟩
    rw [List.mem_filterMap] at he
    obtain ⟨p, hp, hsome⟩ := he
    rw [decide_eq_true_iff] at hpred
    obtain ⟨h1, h2⟩ := hpred
    rcases p with _ | ⟨a, _ | ⟨b, r⟩⟩
    · exact absurd hsome (by simp [installedEntry])
    · simp only [installedEntry] at hsome
      by_cases hemp : (childVersions fs.dirs a).isEmpty
      · rw [if_pos hemp] at hsome
        cases hsome
      · rw [if_neg hemp] at hsome
        obtain rfl := Option.some.inj hsome
        obtain rfl : a = t := h1
        exact ⟨hp, (mem_childVersions _ _ _).mp h2⟩
    · exact absurd hsome (by simp [installedEntry])
  · rintro ⟨ht, htv⟩
    have hmem : v ∈ childVersions fs.dirs t := (mem_childVersions _ _ _).mpr htv
    have hne : ¬ (childVersions fs.dirs t).isEmpty = true := by
      rw [List.isEmpty_iff]
      exact List.ne_nil_of_mem hmem
    refine ⟨(t, childVersions fs.dirs t), ?_, ?_⟩
    · rw [List.mem_filterMap]
      exact ⟨[t], ht, by simp [installedEntry, hne]⟩
    · rw [decide_eq_true_iff]
      exact ⟨rfl, hmem⟩

theorem fileContents_mkdirOne (fs : FS) (p q : List String) :
    (fs.mkdirOne p).fileContents q = fs.fileContents q := by
  unfold FS.mkdirOne
  split <;> rfl

theorem self_mem_dirs_mkdirOne (fs : FS) (p : List String) :
    p ∈ (fs.mkdirOne p).dirs := by
  unfold FS.mkdirOne
  split
  · assumption
  · simp

theorem mem_dirs_mkdirOne (fs : FS) (p q : List String) (h : q ∈ fs.dirs) :
    q ∈ (fs.mkdirOne p).dirs := by
  unfold FS.mkdirOne
  split
  · exact h
  · simp [h]

theorem dirs_writeFile (fs : FS) (p : List String) (c : List Nat) :
    (fs.writeFile p c).dirs = fs.dirs := rfl

theorem dirs_removeFile (fs : FS) (p : List String) :
    (fs.removeFile p).dirs = fs.dirs := rfl

theorem dirs_rename (fs : FS) (src dst : List String) :
    (fs.rename src dst).dirs = fs.dirs := by
  unfold FS.rename
  split <;> rfl

theorem dirs_foldl (step : FS → (String × List Nat) → FS)
    (hstep : ∀ (a : FS) (e : String × List Nat), (step a e).dirs = a.dirs) :
    ∀ (entries : List (String × List Nat)) (a : FS),
      (entries.foldl step a).dirs = a.dirs := by
  intro entries
  induction entries with
  | nil => intro a; rfl
  | cons e rest ih => intro a; rw [List.foldl_cons, ih, hstep]

theorem install_game_dirs (digest : List Nat → String)
    (extract : List Nat → Option (List (String × List Nat)))
    (fs : FS) (n v : String) (respond : Option Nat → Nat × List Nat) (cs : String) :
    (install_game digest extract fs n v respond cs).2.dirs
      = ((fs.mkdirOne [n]).mkdirOne [n, v]).dirs := by
  simp only [install_game]
  split
  · split
    · rw [dirs_removeFile,
        dirs_foldl (fun a e => a.writeFile [n, v, e.1] e.2) (fun _ _ => rfl), dirs_rename]
      split <;> rfl
    · rw [dirs_rename]
      split <;> rfl
  · split <;> rfl

theorem tempName_ne_finalName (n v : String) : tempName n v ≠ finalName n v := by
  intro h
  have h2 : (tempName n v).data = (finalName n v).data := congrArg String.data h
  simp only [tempName, finalName, String.data_append] at h2
  have h3 := List.append_cancel_left h2
  exact absurd h3 (by decide)

theorem tempPath_ne_finalPath (n v : String) :
    ([n, v, tempName n v] : List String) ≠ [n, v, finalName n v] := by
  intro h
  apply tempName_ne_finalName n v
  simpa using h

theorem lookupFile_removeEntry (l : List (List String × List Nat)) (p q : List String)
    (h : q ≠ p) : lookupFile (removeEntry l p) q = lookupFile l q := by
  induction l with
  | nil => rfl
  | cons e rest ih =>
    simp only [removeEntry]
    by_cases he : e.1 = p
    · rw [if_pos he, ih]
      have : e.1 ≠ q := by rw [he]; exact fun hh => h hh.symm
      simp [lookupFile, this]
    · rw [if_neg he]
      simp only [lookupFile, ih]

theorem fileContents_writeFile_self (fs : FS) (p : List String) (c : List Nat) :
    (fs.writeFile p c).fileContents p = some c := by
  simp [FS.writeFile, FS.fileContents, lookupFile]

theorem fileContents_writeFile_ne (fs : FS) (p q : List String) (c : List Nat)
    (h : q ≠ p) : (fs.writeFile p c).fileContents q = fs.fileContents q := by
  unfold FS.writeFile FS.fileContents
  simp only [lookupFile]
  rw [if_neg (fun hh => h hh.symm)]
  exact lookupFile_removeEntry fs.files p q h

theorem download_file_200 (digest : List Nat → String) (existing : Option (List Nat))
    (respond : Option Nat → Nat × List Nat) (cs : String) (payload : List Nat)
    (h : respond (existing.map List.length) = (200, payload)) :
    _download_file digest existing respond cs =
      { success := decide (digest payload = cs), file := some payload } := by
  simp only [_download_file]
  rw [h]
  simp

theorem download_file_206 (digest : List Nat → String) (existing : Option (List Nat))
    (respond : Option Nat → Nat × List Nat) (cs : String) (payload : List Nat)
    (h : respond (existing.map List.length) = (206, payload)) :
    _download_file digest existing respond cs =
      { success := decide (digest (existing.getD [] ++ payload) = cs),
        file := some (existing.getD [] ++ payload) } := by
  simp only [_download_file]
  rw [h]
  simp

theorem download_file_other (digest : List Nat → String) (existing : Option (List Nat))
    (respond : Option Nat → Nat × List Nat) (cs : String)
    (h6 : (respond (existing.map List.length)).1 ≠ 206)
    (h0 : (respond (existing.map List.length)).1 ≠ 200) :
    _download_file digest existing respond cs = { success := false, file := existing } := by
  unfold _download_file
  rw [if_neg h6, if_neg h0]

theorem take_append_drop_lengthTake (l : List Nat) (n : Nat) :
    l.take n ++ l.drop (l.take n).length = l := by
  rw [List.length_take]
  rcases le_total n l.length with h | h
  · rw [min_eq_left h, List.take_append_drop]
  · rw [min_eq_right h, List.drop_length, List.append_nil, List.take_of_length_le h]

theorem process_download_queue_length_le (s : Sched)
    (h : s.active_downloads.length ≤ 3) :
    (process_download_queue s).active_downloads.length ≤ 3 := by
  unfold process_download_queue
  split
  · exact h
  · split
    · exact h
    · split
      · exact h
      · rename_i hlt _
        simp only [List.length_append, List.length_cons, List.length_nil]
        omega

theorem process_download_queue_at_cap (s : Sched)
    (h : 3 ≤ s.active_downloads.length) : process_download_queue s = s := by
  unfold process_download_queue
  split
  · rfl
  · rw [if_pos h]

/-- Claim C1, counterexample: a concrete install run that fails checksum
verification (the abstract digest returns a hex string different from the
expected checksum) reports failure, yet `get_installed_games` afterwards
reports the pair `("g", "1.0")` as installed, because `install_game`
created the version directory before downloading. -/
theorem failed_install_still_reported :
    ((install_game (fun _ => "00") (fun _ => none) ⟨[], []⟩ "g" "1.0"
        (fun _ => (200, [7])) "beef").1 = false)
    ∧ reportsInstalled ((install_game (fun _ => "00") (fun _ => none) ⟨[], []⟩ "g" "1.0"
        (fun _ => (200, [7])) "beef").2) "g" "1.0" = true :=
  ⟨rfl, rfl⟩

/-- Claim C1 (amended): `get_installed_games` reports title `t` as
installed at version `v` iff the directories `<root>/<t>` and
`<root>/<t>/<v>` exist — whether the version directory is empty is not
checked — and `install_game` creates both directories up front, so after
any install run (including failed ones) the version directory is
present. -/
theorem installed_iff_version_dir (fs : FS) (t v : String)
    (digest : List Nat → String) (extract : List Nat → Option (List (String × List Nat)))
    (respond : Option Nat → Nat × List Nat) (cs : String) :
    (reportsInstalled fs t v = true ↔ ([t] ∈ fs.dirs ∧ [t, v] ∈ fs.dirs))
    ∧ [t, v] ∈ (install_game digest extract fs t v respond cs).2.dirs := by
  refine ⟨reportsInstalled_iff fs t v, ?_⟩
  rw [install_game_dirs]
  exact self_mem_dirs_mkdirOne _ _

/-- Claim C2, counterexample: a concrete install whose downloaded bytes
fail digest verification reports failure, but the temporary transfer file
is NOT deleted — it still holds the downloaded bytes afterwards. -/
theorem install_mismatch_temp_remains :
    ((install_game (fun _ => "cc") (fun _ => none) ⟨[], []⟩ "h" "2"
        (fun _ => (200, [5, 6])) "dd").1 = false)
    ∧ ((install_game (fun _ => "cc") (fun _ => none) ⟨[], []⟩ "h" "2"
        (fun _ => (200, [5, 6])) "dd").2.fileContents ["h", "2", tempName "h" "2"]
        = some [5, 6]) :=
  ⟨rfl, rfl⟩

/-- Claim C2 (amended): when the downloaded file fails digest
verification, the install reports failure and no rename to the final
archive name occurs (the final file stays absent), but the temporary
transfer file is retained with the downloaded bytes — only the exception
path of `install_game` deletes the temp and final files. -/
theorem checksum_mismatch_keeps_temp (digest : List Nat → String)
    (extract : List Nat → Option (List (String × List Nat)))
    (fs : FS) (n v : String) (respond : Option Nat → Nat × List Nat)
    (cs : String) (payload : List Nat)
    (h1 : respond ((fs.fileContents [n, v, tempName n v]).map List.length) = (200, payload))
    (h2 : digest payload ≠ cs)
    (h3 : fs.fileContents [n, v, finalName n v] = none) :
    (install_game digest extract fs n v respond cs).1 = false
    ∧ (install_game digest extract fs n v respond cs).2.fileContents
        [n, v, tempName n v] = some payload
    ∧ (install_game digest extract fs n v respond cs).2.fileContents
        [n, v, finalName n v] = none := by
  have hfc : ((fs.mkdirOne [n]).mkdirOne [n, v]).fileContents [n, v, tempName n v]
      = fs.fileContents [n, v, tempName n v] := by
    rw [fileContents_mkdirOne, fileContents_mkdirOne]
  have hr : _download_file digest
        (((fs.mkdirOne [n]).mkdirOne [n, v]).fileContents [n, v, tempName n v]) respond cs
      = { success := false, file := some payload } := by
    rw [hfc, download_file_200 digest _ respond cs payload h1]
    simp [h2]
  have hres : install_game digest extract fs n v respond cs
      = (false, ((fs.mkdirOne [n]).mkdirOne [n, v]).writeFile [n, v, tempName n v] payload) := by
    simp only [install_game]
    rw [hr]
    rfl
  rw [hres]
  refine ⟨rfl, fileContents_writeFile_self _ _ _, ?_⟩
  rw [fileContents_writeFile_ne _ _ _ _ (Ne.symm (tempPath_ne_finalPath n v)),
    fileContents_mkdirOne, fileContents_mkdirOne]
  exact h3

/-- Claim C2 (amended), witness at a concrete failing download. -/
theorem checksum_mismatch_keeps_temp_witness :
    ((install_game (fun _ => "aa") (fun _ => none) ⟨[], []⟩ "g2" "1"
        (fun _ => (200, [9])) "zz").1 = false)
    ∧ ((install_game (fun _ => "aa") (fun _ => none) ⟨[], []⟩ "g2" "1"
        (fun _ => (200, [9])) "zz").2.fileContents ["g2", "1", tempName "g2" "1"]
        = some [9])
    ∧ ((install_game (fun _ => "aa") (fun _ => none) ⟨[], []⟩ "g2" "1"
        (fun _ => (200, [9])) "zz").2.fileContents ["g2", "1", finalName "g2" "1"]
        = none) :=
  checksum_mismatch_keeps_temp (fun _ => "aa") (fun _ => none) ⟨[], []⟩ "g2" "1"
    (fun _ => (200, [9])) "zz" [9] rfl (by decide) rfl

/-- Claim C3, counterexample: with three unrelated downloads active
("a", "b", "c" fill the worker cap), enqueuing "t" leaves it queued but
not active, and enqueuing "t" a second time appends a second task — the
pending queue then holds two tasks for "t", so enqueue is not idempotent
for titles that are only queued, and more than one task per title exists
across queue and active set. -/
theorem duplicate_queue_entries :
    ((queue_download (queue_download (queue_download (queue_download (queue_download
        initialSched "a") "b") "c") "t") "t").download_queue.count "t" = 2)
    ∧ ((queue_download (queue_download (queue_download (queue_download (queue_download
        initialSched "a") "b") "c") "t") "t").active_downloads.count "t" = 0) := by
  decide

/-- Claim C3 (amended): enqueuing is a no-op only when the title already
has an ACTIVE task (`queue_download` checks `active_downloads` alone); a
title that is merely queued is not deduplicated, so the pending queue may
hold several tasks for the same title. -/
theorem queue_download_noop_when_active (s : Sched) (n : String)
    (h : n ∈ s.active_downloads) : queue_download s n = s := by
  unfold queue_download
  rw [if_pos h]

/-- Claim C3 (amended), witness: a concrete state with "a" active. -/
theorem queue_download_noop_when_active_witness :
    queue_download { download_queue := [], active_downloads := ["a"], running := ["a"] } "a"
      = { download_queue := [], active_downloads := ["a"], running := ["a"] } :=
  queue_download_noop_when_active
    { download_queue := [], active_downloads := ["a"], running := ["a"] } "a" (by decide)

/-- Claim C4, counterexample: a sequential trace reaching 4 workers
downloading at once. With "a", "b", "c" active and "t" enqueued twice
(the queue does not deduplicate), the completions of "a" and "b" each
dispatch one queued "t": the second dispatch overwrites the existing
`active_downloads["t"]` key yet still starts a fresh worker, so three
workers run while the dict holds only two keys; enqueuing "d" then
passes the `len(active_downloads) >= 3` check and starts a fourth
worker — a reachable state with 4 simultaneous downloads, refuting the
claimed cap of 3. -/
theorem four_concurrent_workers :
    SchedReachable (queue_download (download_completed (download_completed
        (queue_download (queue_download (queue_download (queue_download (queue_download
          initialSched "a") "b") "c") "t") "t") "a") "b") "d")
    ∧ (queue_download (download_completed (download_completed
        (queue_download (queue_download (queue_download (queue_download (queue_download
          initialSched "a") "b") "c") "t") "t") "a") "b") "d").running.length = 4
    ∧ (queue_download (download_completed (download_completed
        (queue_download (queue_download (queue_download (queue_download (queue_download
          initialSched "a") "b") "c") "t") "t") "a") "b") "d").active_downloads.length = 3 := by
  refine ⟨?_, by decide, by decide⟩
  apply SchedReachable.enqueue
  apply SchedReachable.complete _ _ (by decide)
  apply SchedReachable.complete _ _ (by decide)
  apply SchedReachable.enqueue
  apply SchedReachable.enqueue
  apply SchedReachable.enqueue
  apply SchedReachable.enqueue
  exact SchedReachable.enqueue _ _ SchedReachable.init

/-- Claim C4 (amended): in every scheduler state reachable from the
initial one by enqueue requests and completion callbacks, the
`active_downloads` dict holds at most 3 keys, and the dispatcher never
pops a queued task while that key count is at the cap (it returns the
state unchanged). This bounds only the dict — not the workers actually
downloading: dispatching a title whose key already exists overwrites the
dict entry while still starting another worker, so the number of
simultaneously running downloads can exceed 3. -/
theorem active_downloads_bounded (s : Sched) (h : SchedReachable s) :
    s.active_downloads.length ≤ 3
    ∧ ∀ s' : Sched, 3 ≤ s'.active_downloads.length → process_download_queue s' = s' := by
  refine ⟨?_, fun s' h' => process_download_queue_at_cap s' h'⟩
  induction h with
  | init => simp [initialSched]
  | enqueue s n hs ih =>
    unfold queue_download
    split
    · exact ih
    · exact process_download_queue_length_le _ ih
  | complete s n hn hs ih =>
    unfold download_completed
    exact process_download_queue_length_le _
      (le_trans (List.length_erase_le _ _) ih)

/-- Claim C4 (amended), witness: the initial state is reachable and
satisfies the bound. -/
theorem active_downloads_bounded_witness :
    initialSched.active_downloads.length ≤ 3 :=
  (active_downloads_bounded initialSched SchedReachable.init).1

/-- Claim C5: for one transfer attempt answered with `(status, payload)`,
a `200` truncates and writes the payload, a `206` appends the payload to
the existing destination contents, and any other status makes
`_download_file` return `False` with the destination untouched (the
function issues exactly one request — there is no retry). -/
theorem transfer_status_semantics (digest : List Nat → String)
    (existing : Option (List Nat)) (respond : Option Nat → Nat × List Nat)
    (cs : String) (status : Nat) (payload : List Nat)
    (h : respond (existing.map List.length) = (status, payload)) :
    (status = 200 →
      _download_file digest existing respond cs
        = { success := decide (digest payload = cs), file := some payload })
    ∧ (status = 206 →
      _download_file digest existing respond cs
        = { success := decide (digest (existing.getD [] ++ payload) = cs),
            file := some (existing.getD [] ++ payload) })
    ∧ (status ≠ 200 → status ≠ 206 →
      _download_file digest existing respond cs
        = { success := false, file := existing }) := by
  refine ⟨?_, ?_, ?_⟩
  · rintro rfl
    exact download_file_200 digest existing respond cs payload h
  · rintro rfl
    exact download_file_206 digest existing respond cs payload h
  · intro h0 h6
    exact download_file_other digest existing respond cs
      (by rw [h]; exact h6) (by rw [h]; exact h0)

/-- Claim C5, witness: a `206` answer appends to the existing byte. -/
theorem transfer_status_semantics_witness :
    _download_file (fun _ => "x") (some [1]) (fun _ => (206, [2])) "x"
      = { success := true, file := some [1, 2] } := by
  have h := (transfer_status_semantics (fun _ => "x") (some [1]) (fun _ => (206, [2])) "x"
    206 [2] rfl).2.1 rfl
  exact h

/-- Claim C6: against a server that honours ranges correctly, resuming
from any partial local prefix (`F.take n`) — which sends a range request
from the prefix's length and appends the `206` payload — produces exactly
the same download result (same final bytes `F`, same verification
verdict) as a fresh download with no existing destination file. -/
theorem resume_matches_fresh (digest : List Nat → String) (cs : String)
    (F : List Nat) (n : Nat) :
    _download_file digest (some (F.take n)) (rangeServer F) cs
      = _download_file digest none (rangeServer F) cs := by
  have h206 : rangeServer F ((some (F.take n)).map List.length)
      = (206, F.drop (F.take n).length) := rfl
  rw [download_file_206 digest _ _ cs _ h206,
    download_file_200 digest none _ cs F rfl]
  have hx : (some (List.take n F)).getD [] ++ List.drop (List.take n F).length F = F := by
    show List.take n F ++ List.drop (List.take n F).length F = F
    exact take_append_drop_lengthTake F n
  rw [hx]

/-- Claim C7: whenever both version strings consist of dot-separated
integer components (both component lists parse), `_compare_versions`
returns exactly the spec's padded component-wise comparison
(`specCompare`: missing trailing components count as 0, the first unequal
pair decides); every defined comparison result is `-1`, `0` or `1`; and
the three quoted examples hold. -/
theorem compare_versions_spec :
    (∀ (c l : String) (cs ls : List Int),
      (splitDots c.toList).mapM pyInt? = some cs →
      (splitDots l.toList).mapM pyInt? = some ls →
      _compare_versions c l = some (specCompare cs ls))
    ∧ (∀ (c l : String) (r : Int),
      _compare_versions c l = some r → r = -1 ∨ r = 0 ∨ r = 1)
    ∧ _compare_versions "1.0.2" "1.1.0" = some (-1)
    ∧ _compare_versions "1.1.0" "1.1.0" = some 0
    ∧ _compare_versions "2.0" "1.9.9" = some 1 := by
  refine ⟨?_, ?_, by decide, by decide, by decide⟩
  · intro c l cs ls hc hl
    rw [compare_versions_parsed c l cs ls hc hl, cmpParts_eq_specCompare cs ls]
  · intro c l r h
    rcases hc : (splitDots c.toList).mapM pyInt? with _ | cs
    · rw [compare_versions_failed c l (Or.inl hc)] at h
      cases h
    · rcases hl : (splitDots l.toList).mapM pyInt? with _ | ls
      · rw [compare_versions_failed c l (Or.inr hl)] at h
        cases h
      · rw [compare_versions_parsed c l cs ls hc hl] at h
        obtain rfl := Option.some.inj h
        exact cmpParts_trichotomy cs ls

/-- Claim C7, witness: the first quoted example through the general
parsed-components statement. -/
theorem compare_versions_spec_witness :
    _compare_versions "1.0.2" "1.1.0" = some (specCompare [1, 0, 2] [1, 1, 0]) :=
  compare_versions_spec.1 "1.0.2" "1.1.0" [1, 0, 2] [1, 1, 0] (by decide) (by decide)

/-- Claim C8, counterexample: a malformed component is not treated as 0 —
`int('x')` raises, so the comparison of "1.x" against "1.0" yields no
result at all instead of one of -1, 0, 1 (the claim would require the
value `some 0` here). -/
theorem malformed_version_comparison_fails :
    _compare_versions "1.x" "1.0" = none := by
  decide

/-- Claim C8 (amended): a malformed (non-integer) component makes the
comparison fail — the `ValueError` of `int` propagates out of
`_compare_versions` (modelled as the `none` result) — rather than being
treated as component value 0; only missing trailing components default
to 0. -/
theorem malformed_component_propagates (c l : String)
    (h : (splitDots c.toList).mapM pyInt? = none
      ∨ (splitDots l.toList).mapM pyInt? = none) :
    _compare_versions c l = none :=
  compare_versions_failed c l h

/-- Claim C8 (amended), witness at a concrete malformed version. -/
theorem malformed_component_propagates_witness :
    _compare_versions "2.beta" "2.0" = none :=
  malformed_component_propagates "2.beta" "2.0" (Or.inl (by decide))

/-- Claim C9: a request whose transport fails — while connecting/sending
or while reading the response — yields the uniform failure result
`(500, b'')` from `_make_request` (the exception is swallowed, never
propagated: the function is total on those outcomes), and a download
served by such a request fails with the destination file untouched. -/
theorem transport_error_uniform_failure (o : NetOutcome)
    (h : o = NetOutcome.connectError ∨ o = NetOutcome.readError) :
    _make_request o = (500, [])
    ∧ ∀ (digest : List Nat → String) (existing : Option (List Nat)) (cs : String),
      _download_file digest existing (fun _ => _make_request o) cs
        = { success := false, file := existing } := by
  have hmr : _make_request o = (500, []) := by
    rcases h with rfl | rfl <;> rfl
  refine ⟨hmr, fun digest existing cs => ?_⟩
  apply download_file_other
  · simp [hmr]
  · simp [hmr]

/-- Claim C9, witness at a connection failure. -/
theorem transport_error_uniform_failure_witness :
    _make_request NetOutcome.connectError = (500, []) :=
  (transport_error_uniform_failure NetOutcome.connectError (Or.inl rfl)).1

/-- Claim C10: when the update manifest's checksum field is absent
(`None`) or the empty string — both falsy in Python — a self-update with
a successful (`200`) download writes the new binary and generates and
launches the replacement script WITHOUT ever computing or comparing a
digest: the outcome records no verification call and is the same for
every digest function. -/
theorem missing_checksum_skips_verification (digest : List Nat → String)
    (payload : List Nat) (ck : Option String)
    (h : ck = none ∨ ck = some "") :
    _perform_update digest (200, payload) ck
      = { script_launched := true, verify_called := false, new_binary := some payload } := by
  rcases h with rfl | rfl <;> rfl

/-- Claim C10, witness: an absent checksum with a concrete digest
function. -/
theorem missing_checksum_skips_verification_witness :
    _perform_update (fun _ => "ff") (200, [3, 4]) none
      = { script_launched := true, verify_called := false, new_binary := some [3, 4] } :=
  missing_checksum_skips_verification (fun _ => "ff") [3, 4] none (Or.inl rfl)
